import Mathlib

/-!
Verification of the OVH DNS provider core (provider/ovh/ovh.go) against its
natural-language specification.  The Go functions are shallowly embedded as
executable Lean definitions: Go slices become `List`, Go maps become
association lists in first-insertion order, fallible remote calls become
`Except`/`Option` parameters, and runtime panics become an explicit `crash`
outcome.  String operations are modelled on the underlying character lists
(all inputs of interest are ASCII, where Go's byte-wise operations and
char-wise operations agree).
-/

set_option autoImplicit false

namespace OvhSpec

/-- Embeds Go `ovhRecord` (ovh.go): subDomain/ttl/target from
`ovhRecordFieldUpdate`, fieldType from `ovhRecordFields`, plus ID and Zone.
`ttl` is Go `int64`, `id` is Go `uint64` (only ever compared with 0, never
overflowed, so `Nat` suffices). -/
structure OvhRecord where
  subDomain : String
  ttl : Int
  target : String
  fieldType : String
  id : Nat
  zone : String
  deriving DecidableEq, Repr

/-- Embeds the Go `ovhCreate` / `ovhDelete` / `ovhUpdate` action constants. -/
inductive Action where
  | create
  | delete
  | update
  deriving DecidableEq, Repr

/-- Embeds Go `ovhChange`: an `ovhRecord` tagged with an action. -/
structure OvhChange where
  record : OvhRecord
  action : Action
  deriving DecidableEq, Repr

/-- Embeds `endpoint.Endpoint` as used by ovh.go: DNSName, RecordType,
RecordTTL and Targets.  Produced by an external collaborator. -/
structure Endpoint where
  dnsName : String
  recordType : String
  recordTTL : Int
  targets : List String
  deriving DecidableEq, Repr

/-- Modelled from the spec: `endpoint.TTL.IsConfigured` is not under src/;
the spec states ttl 0 means "use provider default", so a ttl is configured
exactly when it is not 0. -/
def ttlIsConfigured (t : Int) : Bool :=
  t != 0

/-- Embeds the Go constant `ovhDefaultTTL = 0`. -/
def ovhDefaultTTL : Int := 0

/-- Embeds Go `strings.TrimSuffix(s, sfx)`: drop `sfx` from the end of `s`
when it is a suffix, otherwise return `s` unchanged. -/
def trimSuffix (s sfx : String) : String :=
  if sfx.data.isSuffixOf s.data then String.mk (s.data.take (s.data.length - sfx.data.length))
  else s

/-- Embeds Go `strings.TrimPrefix(s, ".")` as used in `ovhGroupByNameAndType`:
drop one leading dot if present. -/
def trimLeadingDot (s : String) : String :=
  match s.data with
  | '.' :: rest => String.mk rest
  | _ => s

/-- Embeds Go `slices.Delete(s, i, j)`: removes the elements `s[i:j]`.
In particular `slicesDelete s i i` removes the empty range `s[i:i]`,
i.e. it removes nothing — exactly as in Go. -/
def slicesDelete {α : Type} (s : List α) (i j : Nat) : List α :=
  s.take i ++ s.drop j

/-- Embeds the first-match scan of `newOvhChangeCreateDelete` (ovh.go:490-496):
index and record of the first existing record with the given
(zone, subdomain, fieldType, target) values. -/
def findFirstMatchAux : List OvhRecord → String → String → String → String → Nat →
    Option (Nat × OvhRecord)
  | [], _, _, _, _, _ => none
  | r :: rs, zone, sub, ft, target, i =>
    if r.zone == zone && r.subDomain == sub && r.fieldType == ft && r.target == target then
      some (i, r)
    else
      findFirstMatchAux rs zone sub ft target (i + 1)

/-- First matching existing record, scanning from index 0. -/
def findFirstMatch (recs : List OvhRecord) (zone sub ft target : String) :
    Option (Nat × OvhRecord) :=
  findFirstMatchAux recs zone sub ft target 0

/-- Embeds the per-target body of the loop in `newOvhChangeCreateDelete`
(ovh.go:467-500): build the change for one endpoint target and, for the
delete action, look up the first matching existing record (attaching its id
to the change and recording its index for later removal). -/
def changeForTarget (action : Action) (zone : String) (e : Endpoint) (target : String)
    (existingRecords : List OvhRecord) : OvhChange × Option Nat :=
  let sub := trimSuffix e.dnsName ("." ++ zone)
  let ttl := if ttlIsConfigured e.recordTTL then e.recordTTL else ovhDefaultTTL
  let base : OvhRecord :=
    { subDomain := sub, ttl := ttl, target := target, fieldType := e.recordType,
      id := 0, zone := zone }
  if action == Action.delete then
    match findFirstMatch existingRecords zone sub e.recordType target with
    | some (i, rec) => ({ record := { base with id := rec.id }, action := action }, some i)
    | none => ({ record := base, action := action }, none)
  else
    ({ record := base, action := action }, none)

/-- Embeds Go `newOvhChangeCreateDelete` (ovh.go:463-512).  Every endpoint
target yields one change; for deletes, matching runs against the unmodified
`existingRecords` for every target (the indices to delete are only collected
during the loop), and afterwards each collected index `i` is removed with
`slices.Delete(existingRecords, i, i)` — which removes the empty range
`[i:i]`, i.e. nothing. -/
def newOvhChangeCreateDelete (action : Action) (endpoints : List Endpoint) (zone : String)
    (existingRecords : List OvhRecord) : List OvhChange × List OvhRecord :=
  let st := endpoints.foldl
    (fun st e =>
      e.targets.foldl
        (fun (st : List OvhChange × List Nat) target =>
          let cd := changeForTarget action zone e target existingRecords
          (st.1 ++ [cd.1],
           match cd.2 with
           | some i => st.2 ++ [i]
           | none => st.2))
        st)
    (([] : List OvhChange), ([] : List Nat))
  let finalRecords := st.2.foldl (fun recs i => slicesDelete recs i i) existingRecords
  (st.1, finalRecords)

/-- Embeds building Go maps `oldEndpointByTypeAndName` / `newEndpointByTypeAndName`
(ovh.go:518-529) as an association list in first-insertion order: inserting an
existing key overwrites its value, a new key is appended. -/
def insertEndpoint (m : List (String × Endpoint)) (k : String) (e : Endpoint) :
    List (String × Endpoint) :=
  match m with
  | [] => [(k, e)]
  | (k', e') :: rest =>
    if k' == k then (k', e) :: rest else (k', e') :: insertEndpoint rest k e

/-- Endpoints keyed by `RecordType + "//" + subdomain` (ovh.go:522-529). -/
def endpointsByTypeAndName (zone : String) (es : List Endpoint) :
    List (String × Endpoint) :=
  es.foldl (fun m e => insertEndpoint m (e.recordType ++ "//" ++ trimSuffix e.dnsName ("." ++ zone)) e) []

/-- Go map lookup on the association list. -/
def lookupEndpoint : List (String × Endpoint) → String → Option Endpoint
  | [], _ => none
  | (k', e) :: rest, k => if k' == k then some e else lookupEndpoint rest k

/-- Embeds the target-matching loop of `newOvhChangeUpdate` (ovh.go:547-562):
for each new target, find the first candidate record with that target and
remove it with `slices.Delete(oldRecords, i, i)` (removing the empty range,
i.e. nothing); unmatched targets are collected into `toInsertTarget`.
Returns (remaining candidate pool, to-insert targets). -/
def matchLoop (targets : List String) (oldRecords0 : List OvhRecord) :
    List OvhRecord × List String :=
  targets.foldl
    (fun (st : List OvhRecord × List String) target =>
      match st.1.findIdx? (fun r => r.target == target) with
      | some i => (slicesDelete st.1 i i, st.2)
      | none => (st.1, st.2 ++ [target]))
    (oldRecords0, [])

/-- Embeds the pairing loop of `newOvhChangeUpdate` (ovh.go:564-584): each
to-insert target (while the pool is non-empty) takes the pool's head record,
"removes" it with `slices.Delete(oldRecords, 0, 0)` (removing nothing),
rewrites its target and ttl and emits an Update change, also recording the
target's index.  Returns (update changes, recorded indices, remaining pool). -/
def pairLoop (ttl : Int) : List String → Nat → List OvhRecord →
    List OvhChange × List Nat × List OvhRecord
  | [], _, recs => ([], [], recs)
  | t :: ts, i, recs =>
    match recs with
    | [] => ([], [], [])
    | r :: _ =>
      let rec2 : OvhRecord := { r with target := t, ttl := ttl }
      let recs1 := slicesDelete recs 0 0
      let rest := pairLoop ttl ts (i + 1) recs1
      (⟨rec2, Action.update⟩ :: rest.1, i :: rest.2.1, rest.2.2)

/-- Embeds the per-group body of `newOvhChangeUpdate` (ovh.go:541-621):
match new targets against the group's candidate pool, pair leftovers into
Update changes, then emit Create changes for the to-insert targets still in
`toInsertTarget` (its recorded indices are "removed" by
`slices.Delete(toInsertTarget, i, i)`, removing nothing) and Delete changes
for the records still in the pool. -/
def updateGroup (zone : String) (newE : Endpoint) (groupRecords : List OvhRecord) :
    List OvhChange :=
  let st := matchLoop newE.targets groupRecords
  let ttl := if ttlIsConfigured newE.recordTTL then newE.recordTTL else ovhDefaultTTL
  let pl := pairLoop ttl st.2 0 st.1
  let toInsertLeft := pl.2.1.foldl (fun ts i => slicesDelete ts i i) st.2
  let creates := toInsertLeft.map
    (fun target =>
      ({ record :=
          { subDomain := trimSuffix newE.dnsName ("." ++ zone), ttl := ttl, target := target,
            fieldType := newE.recordType, id := 0, zone := zone },
         action := Action.create } : OvhChange))
  let deletes := pl.2.2.map (fun r => ({ record := r, action := Action.delete } : OvhChange))
  pl.1 ++ creates ++ deletes

/-- Embeds Go `newOvhChangeUpdate` (ovh.go:514-624).  Iterates the old
endpoint groups; `newEndpointByTypeAndName[id]` yields a nil pointer for a
group absent from the new endpoints, which the loop body dereferences — a Go
runtime panic, modelled as `none`. -/
def newOvhChangeUpdate (endpointsOld endpointsNew : List Endpoint) (zone : String)
    (existingRecords : List OvhRecord) : Option (List OvhChange) :=
  let oldMap := endpointsByTypeAndName zone endpointsOld
  let newMap := endpointsByTypeAndName zone endpointsNew
  oldMap.foldl
    (fun acc kv =>
      match acc with
      | none => none
      | some cs =>
        match lookupEndpoint newMap kv.1 with
        | none => none
        | some newE =>
          some (cs ++ updateGroup zone newE
            (existingRecords.filter (fun r => (r.fieldType ++ "//" ++ r.subDomain) == kv.1))))
    (some [])

/-- Embeds Go `ovhSoa` (ovh.go:345-349): the cached SOA snapshot with its
validating serial and associated record set. -/
structure OvhSoa where
  server : String
  serial : Nat
  records : List OvhRecord
  deriving DecidableEq, Repr

/-- An answer record of the side-channel DNS SOA query: either a SOA record
carrying a serial, or some other record type (the `*dns.SOA` type assertion
in ovh.go:366 fails on it). -/
inductive DnsAnswer where
  | soa (serial : Nat)
  | other
  deriving DecidableEq, Repr

/-- Remote-store calls issued by the record fetcher, for counting. -/
inductive ApiCall where
  | getSoa
  | listRecordIds
  | getRecord (id : Nat)
  deriving DecidableEq, Repr

/-- Outcome of the per-zone record fetch `records` (ovh.go:351-412):
a record set, a propagated remote-call error, or a Go runtime panic. -/
inductive FetchOutcome where
  | ok (records : List OvhRecord)
  | fetchErr
  | crash
  deriving DecidableEq, Repr

/-- Result of one `records` run: its outcome, the remote-store calls issued,
whether `invalidateCache` ran, and the final cache entry for the zone. -/
structure FetchResult where
  outcome : FetchOutcome
  calls : List ApiCall
  cacheInvalidated : Bool
  finalCache : Option OvhSoa
  deriving DecidableEq, Repr

/-- Embeds the fan-out record collection of `records` (ovh.go:392-403): fetch
every listed id, fail if any single fetch fails (errgroup fail-fast), keep
only records whose type is supported. -/
def collectRecords (ids : List Nat) (recResult : Nat → Except Unit OvhRecord)
    (supported : String → Bool) : Except Unit (List OvhRecord) :=
  match ids with
  | [] => Except.ok []
  | id :: rest =>
    match recResult id, collectRecords rest recResult supported with
    | Except.error e, _ => Except.error e
    | _, Except.error e => Except.error e
    | Except.ok r, Except.ok rs => Except.ok (if supported r.fieldType then r :: rs else rs)

/-- Embeds the record-id listing and per-record fetch of `records`
(ovh.go:389-411): list the ids, fetch each by id, and on full success store
the {serial, record set} snapshot into the cache (only when the cache is in
use). -/
def fullFetchIds (useCache : Bool) (soa : Option OvhSoa) (cacheStart : Option OvhSoa)
    (invalidated : Bool) (calls0 : List ApiCall) (idsResult : Except Unit (List Nat))
    (recResult : Nat → Except Unit OvhRecord) (supported : String → Bool) : FetchResult :=
  match idsResult with
  | Except.error _ =>
    ⟨FetchOutcome.fetchErr, calls0 ++ [ApiCall.listRecordIds], invalidated, cacheStart⟩
  | Except.ok ids =>
    let calls1 := calls0 ++ [ApiCall.listRecordIds] ++ ids.map ApiCall.getRecord
    match collectRecords ids recResult supported with
    | Except.error _ => ⟨FetchOutcome.fetchErr, calls1, invalidated, cacheStart⟩
    | Except.ok recs =>
      let newCache :=
        if useCache then
          match soa with
          | some s => some { s with records := recs }
          | none => cacheStart
        else cacheStart
      ⟨FetchOutcome.ok recs, calls1, invalidated, newCache⟩

/-- Embeds the full-fetch path of `records` (ovh.go:379-411): when the cache
is in use, first fetch the zone SOA from the store (propagating its error),
then list and fetch the records. -/
def fullFetch (useCache : Bool) (cacheStart : Option OvhSoa) (invalidated : Bool)
    (soaResult : Except Unit OvhSoa) (idsResult : Except Unit (List Nat))
    (recResult : Nat → Except Unit OvhRecord) (supported : String → Bool) : FetchResult :=
  if useCache then
    match soaResult with
    | Except.error _ => ⟨FetchOutcome.fetchErr, [ApiCall.getSoa], invalidated, cacheStart⟩
    | Except.ok soa =>
      fullFetchIds useCache (some soa) cacheStart invalidated [ApiCall.getSoa]
        idsResult recResult supported
  else
    fullFetchIds useCache none cacheStart invalidated [] idsResult recResult supported

/-- Embeds Go `records` (ovh.go:351-412) for one zone.  On a cache hit the
side-channel SOA query runs: if it succeeds, the code indexes `in.Answer[0]`
without a length check (a Go runtime panic when the answer section is empty,
modelled as `crash`); a SOA answer with the cached serial short-circuits to
the cached record set; any other outcome falls through to `invalidateCache`
and the full fetch. -/
def recordsFn (useCache : Bool) (cacheEntry : Option OvhSoa)
    (dnsResp : Except Unit (List DnsAnswer)) (soaResult : Except Unit OvhSoa)
    (idsResult : Except Unit (List Nat)) (recResult : Nat → Except Unit OvhRecord)
    (supported : String → Bool) : FetchResult :=
  match useCache, cacheEntry with
  | true, some cachedSoa =>
    (match dnsResp with
     | Except.ok [] => ⟨FetchOutcome.crash, [], false, some cachedSoa⟩
     | Except.ok (DnsAnswer.soa serial :: _) =>
       if serial == cachedSoa.serial then
         ⟨FetchOutcome.ok cachedSoa.records, [], false, some cachedSoa⟩
       else
         fullFetch true none true soaResult idsResult recResult supported
     | Except.ok (DnsAnswer.other :: _) =>
       fullFetch true none true soaResult idsResult recResult supported
     | Except.error _ =>
       fullFetch true none true soaResult idsResult recResult supported)
  | true, none => fullFetch true none false soaResult idsResult recResult supported
  | false, ce => fullFetch false ce false soaResult idsResult recResult supported

/-- Error produced by executing one change (`change`, ovh.go:276-298):
either the local `ErrRecordToMutateNotFound`, or an error returned by the
remote client call. -/
inductive ChangeError where
  | recordToMutateNotFound
  | clientError
  deriving DecidableEq, Repr

/-- The remote client call performed by `change`, if any. -/
inductive RemoteCall where
  | post
  | put
  | deleteCall
  deriving DecidableEq, Repr

/-- Result of executing one change: its error (if any), the remote client
call performed (if any), and the rate-limiter tokens taken. -/
structure ChangeResult where
  error : Option ChangeError
  remoteCall : Option RemoteCall
  tokens : Nat
  deriving DecidableEq, Repr

/-- Embeds Go `change` (ovh.go:276-298).  A rate-limiter token is always
taken first; Create posts the record; Update/Delete first check the record
id and fail with `ErrRecordToMutateNotFound` — without any remote call —
when it is 0, otherwise they call the remote store.  `remoteOk` models the
remote client's per-call outcome. -/
def changeFn (remoteOk : OvhChange → Bool) (c : OvhChange) : ChangeResult :=
  match c.action with
  | Action.create =>
    { error := if remoteOk c then none else some ChangeError.clientError,
      remoteCall := some RemoteCall.post, tokens := 1 }
  | Action.delete =>
    if c.record.id == 0 then
      { error := some ChangeError.recordToMutateNotFound, remoteCall := none, tokens := 1 }
    else
      { error := if remoteOk c then none else some ChangeError.clientError,
        remoteCall := some RemoteCall.deleteCall, tokens := 1 }
  | Action.update =>
    if c.record.id == 0 then
      { error := some ChangeError.recordToMutateNotFound, remoteCall := none, tokens := 1 }
    else
      { error := if remoteOk c then none else some ChangeError.clientError,
        remoteCall := some RemoteCall.put, tokens := 1 }

/-- Result of one zone's execution (`handleSingleZoneUpdate`): whether it
returned an error, whether the zone's cache entry was invalidated, whether
the publish ("refresh") call was issued, and the rate-limiter tokens taken
by the publish path. -/
structure ZoneExecResult where
  err : Bool
  cacheInvalidated : Bool
  publishCalled : Bool
  publishTokens : Nat
  deriving DecidableEq, Repr

/-- Embeds Go `refresh` (ovh.go:262-274): invalidate the zone's cache entry,
take one rate-limiter token, and post the publish call, whose failure is
returned as a soft error. -/
def refresh (publishOk : Bool) : ZoneExecResult :=
  { err := !publishOk, cacheInvalidated := true, publishCalled := true, publishTokens := 1 }

/-- Embeds the execution stage of `handleSingleZoneUpdate` (ovh.go:204-222):
dispatch every change (all run to completion; the errgroup join observes an
error iff some change failed); on success call `refresh`, on failure only
invalidate the zone's cache entry. -/
def execZone (cs : List OvhChange) (remoteOk : OvhChange → Bool) (publishOk : Bool) :
    ZoneExecResult :=
  let anyFail := cs.any (fun c => ((changeFn remoteOk c).error).isSome)
  if anyFail then
    { err := true, cacheInvalidated := true, publishCalled := false, publishTokens := 0 }
  else
    refresh publishOk

/-- Embeds `plan.Changes`: the four endpoint lists of one change request. -/
structure PlanChanges where
  create : List Endpoint
  updateOld : List Endpoint
  updateNew : List Endpoint
  delete : List Endpoint
  deriving DecidableEq, Repr

/-- Embeds the planning stage of `handleSingleZoneUpdate` (ovh.go:190-201):
Create changes, then Delete changes against the pool the Create pass
returned, then Update changes against the pool the Delete pass returned –
`none` when `newOvhChangeUpdate` panics. -/
def zonePlannedChanges (zoneName : String) (existingRecords : List OvhRecord)
    (pc : PlanChanges) : Option (List OvhChange) :=
  let s1 := newOvhChangeCreateDelete Action.create pc.create zoneName existingRecords
  let s2 := newOvhChangeCreateDelete Action.delete pc.delete zoneName s1.2
  match newOvhChangeUpdate pc.updateOld pc.updateNew zoneName s2.2 with
  | none => none
  | some cs3 => some (s1.1 ++ s2.1 ++ cs3)

/-- Embeds Go `handleSingleZoneUpdate` (ovh.go:190-223): plan the zone's
changes, then execute them. -/
def handleSingleZoneUpdate (zoneName : String) (existingRecords : List OvhRecord)
    (pc : PlanChanges) (remoteOk : OvhChange → Bool) (publishOk : Bool) :
    Option ZoneExecResult :=
  match zonePlannedChanges zoneName existingRecords pc with
  | none => none
  | some cs => some (execZone cs remoteOk publishOk)

/-- Modelled from the spec: `provider.ZoneIDName.FindZone` is not under src/;
the spec's Zone Partitioner assigns an endpoint hostname to a zone "by
longest-suffix match of its hostname against the filtered zone list (a zone
name must be a dot-bounded suffix of the hostname)", and an endpoint with no
matching zone gets the empty zone name (in particular whenever the zone list
is empty). -/
def findZone (zones : List String) (hostname : String) : String :=
  zones.foldl
    (fun best z =>
      if (hostname == z || ("." ++ z).data.isSuffixOf hostname.data) &&
          z.data.length > best.data.length then z
      else best)
    ""

/-- Embeds the bucket creation of `planChangesByZoneName` (ovh.go:158-185):
`output[zoneName]` is created empty on first touch, then updated via `f`. -/
def addToBucket (m : List (String × PlanChanges)) (k : String)
    (f : PlanChanges → PlanChanges) : List (String × PlanChanges) :=
  match m with
  | [] => [(k, f ⟨[], [], [], []⟩)]
  | (k', pc) :: rest =>
    if k' == k then (k', f pc) :: rest else (k', pc) :: addToBucket rest k f

/-- Embeds Go `planChangesByZoneName` (ovh.go:151-188): bucket the Delete,
Create, UpdateOld and UpdateNew endpoints (in that order) by the zone their
hostname belongs to. -/
def planChangesByZoneName (zones : List String) (changes : PlanChanges) :
    List (String × PlanChanges) :=
  let m0 := changes.delete.foldl
    (fun m e => addToBucket m (findZone zones e.dnsName)
      (fun pc => { pc with delete := pc.delete ++ [e] })) []
  let m1 := changes.create.foldl
    (fun m e => addToBucket m (findZone zones e.dnsName)
      (fun pc => { pc with create := pc.create ++ [e] })) m0
  let m2 := changes.updateOld.foldl
    (fun m e => addToBucket m (findZone zones e.dnsName)
      (fun pc => { pc with updateOld := pc.updateOld ++ [e] })) m1
  changes.updateNew.foldl
    (fun m e => addToBucket m (findZone zones e.dnsName)
      (fun pc => { pc with updateNew := pc.updateNew ++ [e] })) m2

/-- Embeds the provider fields `lastRunRecords` / `lastRunZones`
(ovh.go:74-75), the state `Records` saves and `ApplyChanges` consumes. -/
structure ProviderState where
  lastRunRecords : List OvhRecord
  lastRunZones : List String
  deriving DecidableEq, Repr

/-- Outcome of `ApplyChanges`: a Go runtime panic in some zone's planning,
success, or the single `provider.NewSoftError`-wrapped error. -/
inductive ApplyOutcome where
  | crashed
  | applied
  | softError
  deriving DecidableEq, Repr

/-- Per-zone results of one `ApplyChanges` run (ovh.go:246-253): one
`handleSingleZoneUpdate` per bucket, against the saved last-run records. -/
def zoneResultsOf (st : ProviderState) (changes : PlanChanges)
    (remoteOk : OvhChange → Bool) (publishOk : String → Bool) :
    List (Option ZoneExecResult) :=
  (planChangesByZoneName st.lastRunZones changes).map
    (fun zpc => handleSingleZoneUpdate zpc.1 st.lastRunRecords zpc.2 remoteOk (publishOk zpc.1))

/-- Embeds Go `ApplyChanges` (ovh.go:226-260): partition the request by the
saved last-run zones, run every zone, wrap any zone failure into one soft
error — and (via `defer`) reset `lastRunRecords`/`lastRunZones` to empty
before returning, on every path. -/
def ApplyChanges (st : ProviderState) (changes : PlanChanges)
    (remoteOk : OvhChange → Bool) (publishOk : String → Bool) :
    ApplyOutcome × ProviderState :=
  let rs := zoneResultsOf st changes remoteOk publishOk
  let res :=
    if rs.any (fun r => r.isNone) then ApplyOutcome.crashed
    else if rs.any (fun r => (r.map ZoneExecResult.err).getD false) then ApplyOutcome.softError
    else ApplyOutcome.applied
  (res, ⟨[], []⟩)

/-- Errors `NewOVHProvider` (ovh.go:115-136) can return: a failure of
`ovh.NewEndpointClient` (configuration), or `ErrNoDryRun`. -/
inductive NewProviderError where
  | endpointClient
  | noDryRun
  deriving DecidableEq, Repr

/-- The provider instance as far as construction is concerned. -/
structure OVHProviderInit where
  dryRun : Bool
  useCache : Bool
  deriving DecidableEq, Repr

/-- Embeds Go `NewOVHProvider` (ovh.go:115-136): build the endpoint client
(a pure configuration step, `clientOk` models its outcome), then reject
dry-run mode with `ErrNoDryRun`, otherwise return the provider.  The second
component is the list of remote-store calls issued during construction:
none, on every path. -/
def NewOVHProvider (clientOk : Bool) (dryRun : Bool) :
    Except NewProviderError OVHProviderInit × List ApiCall :=
  if !clientOk then (Except.error NewProviderError.endpointClient, [])
  else if dryRun then (Except.error NewProviderError.noDryRun, [])
  else (Except.ok ⟨dryRun, true⟩, [])

/-- Embeds the grouping key of `ovhGroupByNameAndType` (ovh.go:437):
`r.Zone + "//" + r.SubDomain + "//" + r.FieldType`. -/
def groupKey (r : OvhRecord) : String :=
  r.zone ++ "//" ++ r.subDomain ++ "//" ++ r.fieldType

/-- Embeds the Go map update of `ovhGroupByNameAndType` (ovh.go:438-442) on
an association list in first-insertion order: append the record to the
existing entry for `k`, or append a fresh entry. -/
def upsertGroup (gs : List (String × List OvhRecord)) (k : String) (r : OvhRecord) :
    List (String × List OvhRecord) :=
  match gs with
  | [] => [(k, [r])]
  | (k', rs) :: rest =>
    if k' == k then (k', rs ++ [r]) :: rest
    else (k', rs) :: upsertGroup rest k r

/-- The groups map built by `ovhGroupByNameAndType` (ovh.go:434-443). -/
def groupsOf (records : List OvhRecord) : List (String × List OvhRecord) :=
  records.foldl (fun gs r => upsertGroup gs (groupKey r) r) []

/-- Embeds the endpoint construction of `ovhGroupByNameAndType`
(ovh.go:446-457): hostname, type and ttl from the group's first record,
targets collected from all members (`endpoint.NewEndpointWithTTL` is an
external constructor; the group list is never empty, the `[]` branch is
unreachable). -/
def mkGroupEndpoint (rs : List OvhRecord) : Endpoint :=
  match rs with
  | [] => ⟨"", "", 0, []⟩
  | r0 :: rest =>
    { dnsName := trimLeadingDot (r0.subDomain ++ "." ++ r0.zone),
      recordType := r0.fieldType, recordTTL := r0.ttl,
      targets := (r0 :: rest).map OvhRecord.target }

/-- Embeds Go `ovhGroupByNameAndType` (ovh.go:430-461): group the records by
the `//`-joined key and build one endpoint per group. -/
def ovhGroupByNameAndType (records : List OvhRecord) : List Endpoint :=
  (groupsOf records).map (fun g => mkGroupEndpoint g.2)

/-- The spec's (zone, subdomain, type) grouping triple of a record. -/
def tripleOf (r : OvhRecord) : String × String × String :=
  (r.zone, r.subDomain, r.fieldType)

/-- The `//`-joined key a triple produces, so that
`groupKey r = keyOfTriple (tripleOf r)` definitionally. -/
def keyOfTriple (t : String × String × String) : String :=
  t.1 ++ "//" ++ t.2.1 ++ "//" ++ t.2.2

/-- The distinct values of `f` over a record list, in first-occurrence
order. -/
def firstOccur {α : Type} [DecidableEq α] (f : OvhRecord → α) (records : List OvhRecord) :
    List α :=
  records.foldl (fun ks r => if f r ∈ ks then ks else ks ++ [f r]) []

/-- The distinct grouping triples of a record list. -/
def firstTriples (records : List OvhRecord) : List (String × String × String) :=
  firstOccur tripleOf records

/-- The distinct grouping keys of a record list. -/
def firstKeys (records : List OvhRecord) : List String :=
  firstOccur groupKey records

/-- The invariant tying the groups map to the processed records: its keys
are the distinct group keys in first-occurrence order, and each entry holds
exactly the records with its key, in order. -/
def GroupsInv (done : List OvhRecord) (gs : List (String × List OvhRecord)) : Prop :=
  gs.map Prod.fst = firstKeys done ∧
  ∀ p ∈ gs, p.2 = done.filter (fun x => groupKey x == p.1)

/-- C1: the claim expects the first-matched record of a Delete target to be
consumed from the working pool, so that a second identical Delete target gets
a distinct record id.  Evaluating `newOvhChangeCreateDelete` on two Delete
endpoints with identical (zone, subdomain, type, target) values against two
matching records (ids 10 and 11) shows the code attaches id 10 to BOTH
changes and returns the pool unchanged: the same Record instance is consumed
twice. -/
theorem C1_delete_consumption_eval :
    newOvhChangeCreateDelete Action.delete
      [⟨"www.example.com", "A", 0, ["1.1.1.1"]⟩, ⟨"www.example.com", "A", 0, ["1.1.1.1"]⟩]
      "example.com"
      [⟨"www", 0, "1.1.1.1", "A", 10, "example.com"⟩,
       ⟨"www", 0, "1.1.1.1", "A", 11, "example.com"⟩] =
    ([⟨⟨"www", 0, "1.1.1.1", "A", 10, "example.com"⟩, Action.delete⟩,
      ⟨⟨"www", 0, "1.1.1.1", "A", 10, "example.com"⟩, Action.delete⟩],
     [⟨"www", 0, "1.1.1.1", "A", 10, "example.com"⟩,
      ⟨"www", 0, "1.1.1.1", "A", 11, "example.com"⟩]) := by
  decide

/-- C2: the claim expects min(M,N) Updates, max(N−M,0) Creates and
max(M−N,0) Deletes per group.  For M = 1 existing record and N = 1 desired
target that expects exactly one Update and nothing else; evaluating
`newOvhChangeUpdate` shows the code instead emits one Update, one Create and
one Delete, because `slices.Delete(s, i, i)` never consumes the paired
records and targets. -/
theorem C2_update_count_eval :
    newOvhChangeUpdate
      [⟨"www.example.com", "A", 0, ["1.1.1.1"]⟩]
      [⟨"www.example.com", "A", 0, ["9.9.9.9"]⟩]
      "example.com"
      [⟨"www", 0, "1.1.1.1", "A", 10, "example.com"⟩] =
    some
      [⟨⟨"www", 0, "9.9.9.9", "A", 10, "example.com"⟩, Action.update⟩,
       ⟨⟨"www", 0, "9.9.9.9", "A", 0, "example.com"⟩, Action.create⟩,
       ⟨⟨"www", 0, "1.1.1.1", "A", 10, "example.com"⟩, Action.delete⟩] := by
  decide

/-- C3: Scenario A — zone example.com, existing records id 10 (target
1.1.1.1) and id 11 (target 2.2.2.2) for www/A, desired new targets
[1.1.1.1, 3.3.3.3].  The claim expects exactly one change, Update(id 11,
target 3.3.3.3).  Evaluating `newOvhChangeUpdate` shows the code instead
emits four changes: Update on id 10 (whose target 1.1.1.1 already matched),
a Create for 3.3.3.3, and Deletes for both existing records — because
`slices.Delete(s, i, i)` removes nothing from the pools. -/
theorem C3_scenario_a_eval :
    newOvhChangeUpdate
      [⟨"www.example.com", "A", 0, ["1.1.1.1", "2.2.2.2"]⟩]
      [⟨"www.example.com", "A", 0, ["1.1.1.1", "3.3.3.3"]⟩]
      "example.com"
      [⟨"www", 0, "1.1.1.1", "A", 10, "example.com"⟩,
       ⟨"www", 0, "2.2.2.2", "A", 11, "example.com"⟩] =
    some
      [⟨⟨"www", 0, "3.3.3.3", "A", 10, "example.com"⟩, Action.update⟩,
       ⟨⟨"www", 0, "3.3.3.3", "A", 0, "example.com"⟩, Action.create⟩,
       ⟨⟨"www", 0, "1.1.1.1", "A", 10, "example.com"⟩, Action.delete⟩,
       ⟨⟨"www", 0, "2.2.2.2", "A", 11, "example.com"⟩, Action.delete⟩] := by
  decide

/-- Helper: on the full-fetch path with a successful SOA fetch and a
successful id listing, the calls are exactly the SOA fetch, the id listing
and one get-record per id, and the invalidation flag is passed through. -/
theorem fullFetch_calls_of_ok (soa0 : OvhSoa) (ids : List Nat)
    (recResult : Nat → Except Unit OvhRecord) (supported : String → Bool)
    (cacheStart : Option OvhSoa) (inv : Bool) :
    (fullFetch true cacheStart inv (Except.ok soa0) (Except.ok ids) recResult supported).calls =
      [ApiCall.getSoa, ApiCall.listRecordIds] ++ ids.map ApiCall.getRecord ∧
    (fullFetch true cacheStart inv (Except.ok soa0) (Except.ok ids)
        recResult supported).cacheInvalidated = inv := by
  unfold fullFetch fullFetchIds
  cases h : collectRecords ids recResult supported <;> simp [h]

/-- C4: for a zone with a cached SOA snapshot of serial S, a side-channel
query answering SOA with serial S makes the fetch return the cached record
set with zero remote-store calls (in particular zero id listings and zero
per-record fetches); a query answering a serial different from S, or failing
outright, invalidates the cache entry and performs the full record-id
listing plus a per-record fetch for every listed id. -/
theorem C4_cache_validity (cached : OvhSoa) (rest : List DnsAnswer) (soa0 : OvhSoa)
    (ids : List Nat) (recResult : Nat → Except Unit OvhRecord) (supported : String → Bool) :
    ((recordsFn true (some cached) (Except.ok (DnsAnswer.soa cached.serial :: rest))
        (Except.ok soa0) (Except.ok ids) recResult supported).outcome =
          FetchOutcome.ok cached.records ∧
      (recordsFn true (some cached) (Except.ok (DnsAnswer.soa cached.serial :: rest))
        (Except.ok soa0) (Except.ok ids) recResult supported).calls = []) ∧
    (∀ s' : Nat, s' ≠ cached.serial →
      (recordsFn true (some cached) (Except.ok (DnsAnswer.soa s' :: rest))
        (Except.ok soa0) (Except.ok ids) recResult supported).cacheInvalidated = true ∧
      ApiCall.listRecordIds ∈ (recordsFn true (some cached)
        (Except.ok (DnsAnswer.soa s' :: rest)) (Except.ok soa0) (Except.ok ids)
        recResult supported).calls ∧
      ∀ id ∈ ids, ApiCall.getRecord id ∈ (recordsFn true (some cached)
        (Except.ok (DnsAnswer.soa s' :: rest)) (Except.ok soa0) (Except.ok ids)
        recResult supported).calls) ∧
    ((recordsFn true (some cached) (Except.error ()) (Except.ok soa0) (Except.ok ids)
        recResult supported).cacheInvalidated = true ∧
      ApiCall.listRecordIds ∈ (recordsFn true (some cached) (Except.error ())
        (Except.ok soa0) (Except.ok ids) recResult supported).calls ∧
      ∀ id ∈ ids, ApiCall.getRecord id ∈ (recordsFn true (some cached) (Except.error ())
        (Except.ok soa0) (Except.ok ids) recResult supported).calls) := by
  have hf := fullFetch_calls_of_ok soa0 ids recResult supported none true
  refine ⟨⟨by simp [recordsFn], by simp [recordsFn]⟩, ?_, ?_⟩
  · intro s' hs
    have hb : (s' == cached.serial) = false := by simp [hs]
    refine ⟨?_, ?_, ?_⟩
    · simp [recordsFn, hb, hf.2]
    · simp [recordsFn, hb, hf.1]
    · intro id hid
      simp [recordsFn, hb, hf.1, List.mem_append, List.mem_map]
      exact hid
  · refine ⟨?_, ?_, ?_⟩
    · simp [recordsFn, hf.2]
    · simp [recordsFn, hf.1]
    · intro id hid
      simp [recordsFn, hf.1, List.mem_append, List.mem_map]
      exact hid

/-- Witness for C4 at a concrete cached snapshot of serial 42: a matching
query returns the cached (empty) record set, and a query answering serial 99
invalidates the cache entry. -/
theorem C4_cache_validity_witness :
    (recordsFn true (some ⟨"dns10.ovh.net", 42, []⟩) (Except.ok [DnsAnswer.soa 42])
      (Except.ok ⟨"dns10.ovh.net", 43, []⟩) (Except.ok [7])
      (fun _ => Except.ok ⟨"www", 0, "1.1.1.1", "A", 7, "x.com"⟩)
      (fun _ => true)).outcome = FetchOutcome.ok [] ∧
    (recordsFn true (some ⟨"dns10.ovh.net", 42, []⟩) (Except.ok [DnsAnswer.soa 99])
      (Except.ok ⟨"dns10.ovh.net", 43, []⟩) (Except.ok [7])
      (fun _ => Except.ok ⟨"www", 0, "1.1.1.1", "A", 7, "x.com"⟩)
      (fun _ => true)).cacheInvalidated = true :=
  ⟨(C4_cache_validity ⟨"dns10.ovh.net", 42, []⟩ [] ⟨"dns10.ovh.net", 43, []⟩ [7]
      (fun _ => Except.ok (⟨"www", 0, "1.1.1.1", "A", 7, "x.com"⟩ : OvhRecord))
      (fun _ => true)).1.1,
   ((C4_cache_validity ⟨"dns10.ovh.net", 42, []⟩ [] ⟨"dns10.ovh.net", 43, []⟩ [7]
      (fun _ => Except.ok (⟨"www", 0, "1.1.1.1", "A", 7, "x.com"⟩ : OvhRecord))
      (fun _ => true)).2.1 99
      (by decide)).1⟩

/-- C5: the claim states that a side-channel query which succeeds but
returns no answer records is downgraded to an invalid-cache full fetch and
never crashes the record fetch.  Evaluating `recordsFn` on a cached snapshot
with a successful empty-answer query shows the code instead panics: ovh.go
indexes `in.Answer[0]` without checking the answer section's length. -/
theorem C5_empty_answer_crash :
    (recordsFn true (some ⟨"dns10.ovh.net", 42, []⟩) (Except.ok [])
      (Except.ok ⟨"dns10.ovh.net", 42, []⟩) (Except.ok [])
      (fun _ => Except.ok ⟨"www", 0, "1.1.1.1", "A", 7, "x.com"⟩)
      (fun _ => true)).outcome = FetchOutcome.crash := rfl

/-- C6: for every zone the executor processes (whose planning does not
panic), the zone's cache entry is invalidated on every outcome; when every
dispatched change succeeds the publish ("refresh") call is issued and takes
one rate-limiter token, and when some change fails no publish call is
issued. -/
theorem C6_zone_publish (zoneName : String) (existing : List OvhRecord) (pc : PlanChanges)
    (remoteOk : OvhChange → Bool) (publishOk : Bool) (cs : List OvhChange)
    (h : zonePlannedChanges zoneName existing pc = some cs) :
    handleSingleZoneUpdate zoneName existing pc remoteOk publishOk =
      some (execZone cs remoteOk publishOk) ∧
    (execZone cs remoteOk publishOk).cacheInvalidated = true ∧
    ((∀ c ∈ cs, (changeFn remoteOk c).error = none) →
      (execZone cs remoteOk publishOk).publishCalled = true ∧
      (execZone cs remoteOk publishOk).publishTokens = 1) ∧
    ((∃ c ∈ cs, (changeFn remoteOk c).error ≠ none) →
      (execZone cs remoteOk publishOk).publishCalled = false ∧
      (execZone cs remoteOk publishOk).publishTokens = 0) := by
  refine ⟨by simp [handleSingleZoneUpdate, h], ?_, ?_, ?_⟩
  · by_cases hany : cs.any (fun c => ((changeFn remoteOk c).error).isSome) = true
    · simp [execZone, hany]
    · simp [execZone, Bool.eq_false_iff.mpr hany, refresh]
  · intro hall
    have hany : cs.any (fun c => ((changeFn remoteOk c).error).isSome) = false := by
      rw [List.any_eq_false]
      intro c hc
      simp [hall c hc]
    simp [execZone, hany, refresh]
  · intro hex
    obtain ⟨c, hc, hne⟩ := hex
    have hany : cs.any (fun c => ((changeFn remoteOk c).error).isSome) = true :=
      List.any_eq_true.mpr ⟨c, hc, Option.isSome_iff_ne_none.mpr hne⟩
    simp [execZone, hany]

/-- Witness for C6 at a concrete zone with one successfully created change:
the planning succeeds, and publish is issued with one token. -/
theorem C6_zone_publish_witness :
    handleSingleZoneUpdate "example.com" []
      ⟨[⟨"www.example.com", "A", 0, ["1.1.1.1"]⟩], [], [], []⟩ (fun _ => true) true =
      some (execZone [⟨⟨"www", 0, "1.1.1.1", "A", 0, "example.com"⟩, Action.create⟩]
        (fun _ => true) true) ∧
    (execZone [⟨⟨"www", 0, "1.1.1.1", "A", 0, "example.com"⟩, Action.create⟩]
      (fun _ => true) true).publishCalled = true ∧
    (execZone [⟨⟨"www", 0, "1.1.1.1", "A", 0, "example.com"⟩, Action.create⟩]
      (fun _ => true) true).publishTokens = 1 :=
  have hc := C6_zone_publish "example.com" []
    ⟨[⟨"www.example.com", "A", 0, ["1.1.1.1"]⟩], [], [], []⟩ (fun _ => true) true
    [⟨⟨"www", 0, "1.1.1.1", "A", 0, "example.com"⟩, Action.create⟩] (by decide)
  ⟨hc.1, (hc.2.2.1 (by decide)).1, (hc.2.2.1 (by decide)).2⟩

/-- C7: an Update or Delete change whose record id is 0 fails with the
record-to-mutate-not-found error and performs no remote call; a Create
change never fails with that error; and `ApplyChanges` reports any per-zone
failure as the single soft error. -/
theorem C7_unmatched_and_soft (remoteOk : OvhChange → Bool) (c : OvhChange)
    (st : ProviderState) (changes : PlanChanges) (publishOk : String → Bool) :
    ((c.action = Action.update ∨ c.action = Action.delete) → c.record.id = 0 →
      (changeFn remoteOk c).error = some ChangeError.recordToMutateNotFound ∧
      (changeFn remoteOk c).remoteCall = none) ∧
    (c.action = Action.create →
      (changeFn remoteOk c).error ≠ some ChangeError.recordToMutateNotFound) ∧
    ((zoneResultsOf st changes remoteOk publishOk).all (fun r => r.isSome) = true →
      (∃ r ∈ zoneResultsOf st changes remoteOk publishOk,
        ∃ res, r = some res ∧ res.err = true) →
      (ApplyChanges st changes remoteOk publishOk).1 = ApplyOutcome.softError) := by
  refine ⟨?_, ?_, ?_⟩
  · intro hact hid
    rcases hact with hact | hact <;> · constructor <;> simp [changeFn, hact, hid]
  · intro hact
    cases hrc : remoteOk c <;> simp [changeFn, hact, hrc]
  · intro hall hex
    have h1 : (zoneResultsOf st changes remoteOk publishOk).any (fun r => r.isNone) = false := by
      rw [List.any_eq_false]
      intro r hr
      have hs := List.all_eq_true.mp hall r hr
      cases r with
      | none => simp at hs
      | some v => simp
    have h2 : (zoneResultsOf st changes remoteOk publishOk).any
        (fun r => (r.map ZoneExecResult.err).getD false) = true := by
      rw [List.any_eq_true]
      obtain ⟨r, hr, res, hres, herr⟩ := hex
      exact ⟨r, hr, by simp [hres, herr]⟩
    simp [ApplyChanges, h1, h2]

/-- Witness for C7: an Update with id 0 fails with the not-found error, and
a one-zone run whose single Create change fails yields the soft error. -/
theorem C7_unmatched_and_soft_witness :
    (changeFn (fun _ => false)
        ⟨⟨"www", 0, "1.1.1.1", "A", 0, "example.com"⟩, Action.update⟩).error =
      some ChangeError.recordToMutateNotFound ∧
    (ApplyChanges ⟨[], ["example.com"]⟩
      ⟨[⟨"www.example.com", "A", 0, ["1.1.1.1"]⟩], [], [], []⟩
      (fun _ => false) (fun _ => true)).1 = ApplyOutcome.softError :=
  have h1 := C7_unmatched_and_soft (fun _ => false)
    ⟨⟨"www", 0, "1.1.1.1", "A", 0, "example.com"⟩, Action.update⟩
    ⟨[], ["example.com"]⟩ ⟨[⟨"www.example.com", "A", 0, ["1.1.1.1"]⟩], [], [], []⟩
    (fun _ => true)
  ⟨(h1.1 (Or.inl rfl) rfl).1,
   h1.2.2 (by decide)
     ⟨some ⟨true, true, false, 0⟩, by decide, ⟨true, true, false, 0⟩, rfl, rfl⟩⟩

/-- C9: constructing the provider with dry-run mode enabled (and a valid
endpoint configuration) fails with the no-dry-run error, issues zero
remote-store calls, and returns no provider instance. -/
theorem C9_dry_run_rejected (clientOk : Bool) (h : clientOk = true) :
    (NewOVHProvider clientOk true).1 = Except.error NewProviderError.noDryRun ∧
    (NewOVHProvider clientOk true).2 = [] ∧
    ∀ p : OVHProviderInit, (NewOVHProvider clientOk true).1 ≠ Except.ok p := by
  subst h
  refine ⟨rfl, rfl, fun p => by simp [NewOVHProvider]⟩

/-- Witness for C9 at `clientOk = true`. -/
theorem C9_dry_run_rejected_witness :
    (NewOVHProvider true true).1 = Except.error NewProviderError.noDryRun ∧
    (NewOVHProvider true true).2 = [] :=
  ⟨(C9_dry_run_rejected true rfl).1, (C9_dry_run_rejected true rfl).2.1⟩

/-- Helper: every entry of `addToBucket m k f` either has key `k` or was
already an entry of `m`. -/
theorem addToBucket_keys (m : List (String × PlanChanges)) (k : String)
    (f : PlanChanges → PlanChanges) :
    ∀ p ∈ addToBucket m k f, p.1 = k ∨ p ∈ m := by
  induction m with
  | nil =>
    intro p hp
    simp only [addToBucket, List.mem_singleton] at hp
    exact Or.inl (by rw [hp])
  | cons q rest ih =>
    obtain ⟨k', pc⟩ := q
    intro p hp
    simp only [addToBucket] at hp
    by_cases hk : (k' == k) = true
    · rw [if_pos hk] at hp
      rcases List.mem_cons.mp hp with hp | hp
      · exact Or.inl (by rw [hp]; exact eq_of_beq hk)
      · exact Or.inr (List.mem_cons_of_mem _ hp)
    · rw [if_neg hk] at hp
      rcases List.mem_cons.mp hp with hp | hp
      · exact Or.inr (by rw [hp]; exact List.mem_cons_self _ _)
      · rcases ih p hp with h | h
        · exact Or.inl h
        · exact Or.inr (List.mem_cons_of_mem _ h)

/-- Helper: a fold of `addToBucket` steps whose inserted keys are all `k0`,
starting from buckets whose keys are all `k0`, yields buckets whose keys are
all `k0`. -/
theorem foldl_addToBucket_keys (l : List Endpoint) (g : Endpoint → PlanChanges → PlanChanges)
    (kf : Endpoint → String) (k0 : String) :
    ∀ m : List (String × PlanChanges), (∀ p ∈ m, p.1 = k0) → (∀ e, kf e = k0) →
    ∀ p ∈ l.foldl (fun m e => addToBucket m (kf e) (g e)) m, p.1 = k0 := by
  induction l with
  | nil => intro m hm _ p hp; exact hm p hp
  | cons e rest ih =>
    intro m hm hk p hp
    refine ih _ ?_ hk p hp
    intro q hq
    rcases addToBucket_keys m (kf e) (g e) q hq with h | h
    · rw [h, hk e]
    · exact hm q h

/-- Helper: partitioning against an empty zone list assigns every endpoint
to the empty zone name. -/
theorem planChangesByZoneName_empty_keys (changes : PlanChanges) :
    ∀ b ∈ planChangesByZoneName [] changes, b.1 = "" := by
  intro b hb
  simp only [planChangesByZoneName] at hb
  refine foldl_addToBucket_keys changes.updateNew _ _ "" _ ?_ (fun e => rfl) b hb
  intro q1 hq1
  refine foldl_addToBucket_keys changes.updateOld _ _ "" _ ?_ (fun e => rfl) q1 hq1
  intro q2 hq2
  refine foldl_addToBucket_keys changes.create _ _ "" _ ?_ (fun e => rfl) q2 hq2
  intro q3 hq3
  refine foldl_addToBucket_keys changes.delete _ _ "" _ ?_ (fun e => rfl) q3 hq3
  intro q4 hq4
  simp at hq4

/-- C10: every `ApplyChanges` call, whatever its outcome, returns with the
stored last-run zone list and record snapshot reset to empty; a second
`ApplyChanges` without an intervening `Records` therefore partitions its
endpoints against an empty zone list, assigning every endpoint to the empty
zone name. -/
theorem C10_state_reset (st : ProviderState) (changes changes2 : PlanChanges)
    (remoteOk : OvhChange → Bool) (publishOk : String → Bool) :
    (ApplyChanges st changes remoteOk publishOk).2 = ⟨[], []⟩ ∧
    ∀ b ∈ planChangesByZoneName
        (ApplyChanges st changes remoteOk publishOk).2.lastRunZones changes2, b.1 = "" := by
  exact ⟨rfl, planChangesByZoneName_empty_keys changes2⟩

/-- Witness for C10: a concrete first run resets the state, and the one
bucket of a concrete second-run partition carries the empty zone name. -/
theorem C10_state_reset_witness :
    (ApplyChanges ⟨[⟨"www", 0, "1.1.1.1", "A", 10, "example.com"⟩], ["example.com"]⟩
      ⟨[], [], [], []⟩ (fun _ => true) (fun _ => true)).2 = ⟨[], []⟩ ∧
    (("", (⟨[⟨"foo.example.com", "A", 0, ["1.1.1.1"]⟩], [], [], []⟩ : PlanChanges)) :
      String × PlanChanges).1 = "" :=
  have h := C10_state_reset ⟨[⟨"www", 0, "1.1.1.1", "A", 10, "example.com"⟩], ["example.com"]⟩
    ⟨[], [], [], []⟩ ⟨[⟨"foo.example.com", "A", 0, ["1.1.1.1"]⟩], [], [], []⟩
    (fun _ => true) (fun _ => true)
  ⟨h.1, h.2 ("", ⟨[⟨"foo.example.com", "A", 0, ["1.1.1.1"]⟩], [], [], []⟩) (by decide)⟩

/-- Helper: membership in a `firstOccur`-style fold. -/
theorem firstOccur_aux_mem {α : Type} [DecidableEq α] (f : OvhRecord → α)
    (l : List OvhRecord) :
    ∀ (acc : List α) (x : α),
      (x ∈ l.foldl (fun ks r => if f r ∈ ks then ks else ks ++ [f r]) acc ↔
        x ∈ acc ∨ ∃ r ∈ l, f r = x) := by
  induction l with
  | nil => simp
  | cons r rest ih =>
    intro acc x
    simp only [List.foldl_cons]
    by_cases h : f r ∈ acc
    · rw [if_pos h, ih]
      constructor
      · rintro (hx | hx)
        · exact Or.inl hx
        · obtain ⟨s, hs, hfs⟩ := hx
          exact Or.inr ⟨s, List.mem_cons_of_mem r hs, hfs⟩
      · rintro (hx | ⟨s, hs, hfs⟩)
        · exact Or.inl hx
        · rcases List.mem_cons.mp hs with hs | hs
          · exact Or.inl (by rw [← hfs, hs]; exact h)
          · exact Or.inr ⟨s, hs, hfs⟩
    · rw [if_neg h, ih]
      constructor
      · rintro (hx | hx)
        · rcases List.mem_append.mp hx with hx | hx
          · exact Or.inl hx
          · exact Or.inr ⟨r, List.mem_cons_self r rest, (List.mem_singleton.mp hx).symm⟩
        · obtain ⟨s, hs, hfs⟩ := hx
          exact Or.inr ⟨s, List.mem_cons_of_mem r hs, hfs⟩
      · rintro (hx | ⟨s, hs, hfs⟩)
        · exact Or.inl (List.mem_append.mpr (Or.inl hx))
        · rcases List.mem_cons.mp hs with hs | hs
          · exact Or.inl
              (List.mem_append.mpr (Or.inr (List.mem_singleton.mpr (by rw [← hfs, hs]))))
          · exact Or.inr ⟨s, hs, hfs⟩

/-- Helper: membership in `firstOccur`. -/
theorem firstOccur_mem {α : Type} [DecidableEq α] (f : OvhRecord → α) (l : List OvhRecord)
    (x : α) : x ∈ firstOccur f l ↔ ∃ r ∈ l, f r = x := by
  rw [firstOccur, firstOccur_aux_mem]
  simp

/-- Helper: a `firstOccur`-style fold preserves `Nodup`. -/
theorem firstOccur_aux_nodup {α : Type} [DecidableEq α] (f : OvhRecord → α)
    (l : List OvhRecord) :
    ∀ acc : List α, acc.Nodup →
      (l.foldl (fun ks r => if f r ∈ ks then ks else ks ++ [f r]) acc).Nodup := by
  induction l with
  | nil => intro acc h; simpa using h
  | cons r rest ih =>
    intro acc h
    simp only [List.foldl_cons]
    by_cases hm : f r ∈ acc
    · rw [if_pos hm]; exact ih acc h
    · rw [if_neg hm]
      refine ih _ ?_
      simp [List.nodup_append, h, hm]

/-- Helper: `firstOccur` lists are duplicate-free. -/
theorem firstOccur_nodup {α : Type} [DecidableEq α] (f : OvhRecord → α)
    (l : List OvhRecord) : (firstOccur f l).Nodup :=
  firstOccur_aux_nodup f l [] List.nodup_nil

/-- Helper: the keys after an `upsertGroup` step. -/
theorem upsertGroup_fst (gs : List (String × List OvhRecord)) (k : String) (r : OvhRecord) :
    (upsertGroup gs k r).map Prod.fst =
      if k ∈ gs.map Prod.fst then gs.map Prod.fst else gs.map Prod.fst ++ [k] := by
  induction gs with
  | nil => simp [upsertGroup]
  | cons q rest ih =>
    obtain ⟨k', rs⟩ := q
    by_cases h : (k' == k) = true
    · have hk : k' = k := eq_of_beq h
      subst hk
      simp [upsertGroup]
    · have hne : ¬k' = k := fun hh => h (by rw [hh]; exact beq_self_eq_true k)
      simp only [upsertGroup, if_neg h, List.map_cons]
      rw [ih]
      by_cases hm : k ∈ rest.map Prod.fst
      · rw [if_pos hm, if_pos (List.mem_cons_of_mem k' hm)]
      · rw [if_neg hm, if_neg ?_, List.cons_append]
        intro hmem
        rcases List.mem_cons.mp hmem with hmem | hmem
        · exact hne hmem.symm
        · exact hm hmem

/-- Helper: the entries after an `upsertGroup` step, assuming the keys are
duplicate-free: an untouched entry with a different key, the updated entry
for `k`, or a freshly created entry for `k`. -/
theorem upsertGroup_mem (k : String) (r : OvhRecord) :
    ∀ gs : List (String × List OvhRecord), (gs.map Prod.fst).Nodup →
    ∀ p ∈ upsertGroup gs k r,
      (p ∈ gs ∧ ¬p.1 = k) ∨ (∃ rs, (k, rs) ∈ gs ∧ p = (k, rs ++ [r])) ∨
      (k ∉ gs.map Prod.fst ∧ p = (k, [r])) := by
  intro gs
  induction gs with
  | nil =>
    intro _ p hp
    simp only [upsertGroup, List.mem_singleton] at hp
    exact Or.inr (Or.inr ⟨by simp, hp⟩)
  | cons q rest ih =>
    obtain ⟨k', rs⟩ := q
    intro hnd p hp
    have hnd' : (rest.map Prod.fst).Nodup := (List.nodup_cons.mp (by simpa using hnd)).2
    have hknotin : k' ∉ rest.map Prod.fst := (List.nodup_cons.mp (by simpa using hnd)).1
    by_cases h : (k' == k) = true
    · have hk : k' = k := eq_of_beq h
      subst hk
      simp only [upsertGroup, if_pos (beq_self_eq_true k')] at hp
      rcases List.mem_cons.mp hp with hp | hp
      · exact Or.inr (Or.inl ⟨rs, List.mem_cons_self _ _, hp⟩)
      · have : ¬p.1 = k' := by
          intro hh
          exact hknotin (hh ▸ List.mem_map.mpr ⟨p, hp, rfl⟩)
        exact Or.inl ⟨List.mem_cons_of_mem _ hp, this⟩
    · have hne : ¬k' = k := fun hh => h (by rw [hh]; exact beq_self_eq_true k)
      simp only [upsertGroup, if_neg h] at hp
      rcases List.mem_cons.mp hp with hp | hp
      · exact Or.inl ⟨by rw [hp]; exact List.mem_cons_self _ _, by rw [hp]; exact hne⟩
      · rcases ih hnd' p hp with ⟨hin, hnk⟩ | ⟨rs', hin, heq⟩ | ⟨hnin, heq⟩
        · exact Or.inl ⟨List.mem_cons_of_mem _ hin, hnk⟩
        · exact Or.inr (Or.inl ⟨rs', List.mem_cons_of_mem _ hin, heq⟩)
        · refine Or.inr (Or.inr ⟨?_, heq⟩)
          intro hmem
          rcases List.mem_cons.mp hmem with hmem | hmem
          · exact hne hmem.symm
          · exact hnin hmem

/-- Helper: `firstOccur` over one appended record. -/
theorem firstOccur_append_single {α : Type} [DecidableEq α] (f : OvhRecord → α)
    (l : List OvhRecord) (r : OvhRecord) :
    firstOccur f (l ++ [r]) =
      if f r ∈ firstOccur f l then firstOccur f l else firstOccur f l ++ [f r] := by
  unfold firstOccur
  rw [List.foldl_append]
  rfl

/-- Helper: one `upsertGroup` step preserves the groups invariant. -/
theorem groupsInv_step (done : List OvhRecord) (gs : List (String × List OvhRecord))
    (r : OvhRecord) (h : GroupsInv done gs) :
    GroupsInv (done ++ [r]) (upsertGroup gs (groupKey r) r) := by
  obtain ⟨hkeys, hvals⟩ := h
  have hnd : (gs.map Prod.fst).Nodup := by
    rw [hkeys]; exact firstOccur_nodup groupKey done
  constructor
  · rw [upsertGroup_fst, hkeys]
    exact (firstOccur_append_single groupKey done r).symm
  · intro p hp
    rcases upsertGroup_mem (groupKey r) r gs hnd p hp with
      ⟨hin, hnk⟩ | ⟨rs', hin, heq⟩ | ⟨hnin, heq⟩
    · have hgr : (groupKey r == p.1) = false := by
        rw [beq_eq_false_iff_ne]
        exact fun hh => hnk hh.symm
      rw [List.filter_append]
      have h1 : List.filter (fun x => groupKey x == p.1) [r] = [] := by
        simp [List.filter, hgr]
      rw [h1, List.append_nil]
      exact hvals p hin
    · subst heq
      dsimp only
      rw [List.filter_append]
      have h1 : List.filter (fun x => groupKey x == groupKey r) [r] = [r] := by
        simp [List.filter]
      rw [h1]
      have hval := hvals (groupKey r, rs') hin
      dsimp only at hval
      rw [← hval]
    · subst heq
      dsimp only
      have hnone : done.filter (fun x => groupKey x == groupKey r) = [] := by
        rw [List.filter_eq_nil_iff]
        intro x hx
        simp only [beq_iff_eq]
        intro hh
        rw [hkeys] at hnin
        exact hnin ((firstOccur_mem groupKey done (groupKey r)).mpr ⟨x, hx, hh⟩)
      rw [List.filter_append, hnone]
      simp [List.filter]

/-- Helper: the groups map of `ovhGroupByNameAndType` satisfies the
invariant for the whole record list. -/
theorem groupsOf_inv (records : List OvhRecord) : GroupsInv records (groupsOf records) := by
  suffices h : ∀ (l acc : List OvhRecord) (gs : List (String × List OvhRecord)),
      GroupsInv acc gs →
      GroupsInv (acc ++ l) (l.foldl (fun gs r => upsertGroup gs (groupKey r) r) gs) by
    have h0 : GroupsInv [] [] := ⟨rfl, by simp⟩
    simpa using h records [] [] h0
  intro l
  induction l with
  | nil => intro acc gs h; simpa using h
  | cons r rest ih =>
    intro acc gs h
    have h1 := groupsInv_step acc gs r h
    have h2 := ih (acc ++ [r]) _ h1
    simpa using h2

/-- Helper: along the two dedup folds, when the grouping key factors through
`f` injectively (on the records involved), the key accumulator stays the
`key`-image of the `f` accumulator. -/
theorem firstOccur_fold_map {α : Type} [DecidableEq α] (f : OvhRecord → α) (key : α → String)
    (records : List OvhRecord) (hcomm : ∀ r : OvhRecord, groupKey r = key (f r))
    (hinj : ∀ r ∈ records, ∀ s ∈ records, groupKey r = groupKey s → f r = f s)
    (l : List OvhRecord) (hsub : ∀ r ∈ l, r ∈ records)
    (accT : List α) (hacc : ∀ t ∈ accT, ∃ s ∈ records, f s = t) :
    (l.foldl (fun ks r => if groupKey r ∈ ks then ks else ks ++ [groupKey r])
        (accT.map key) =
      (l.foldl (fun ts r => if f r ∈ ts then ts else ts ++ [f r]) accT).map key) ∧
    (∀ t ∈ l.foldl (fun ts r => if f r ∈ ts then ts else ts ++ [f r]) accT,
      ∃ s ∈ records, f s = t) := by
  induction l generalizing accT with
  | nil => exact ⟨rfl, hacc⟩
  | cons r rest ih =>
    have hr : r ∈ records := hsub r (List.mem_cons_self r rest)
    have hsub' : ∀ x ∈ rest, x ∈ records := fun x hx => hsub x (List.mem_cons_of_mem r hx)
    by_cases ht : f r ∈ accT
    · have hk : groupKey r ∈ accT.map key := by
        rw [hcomm r]
        exact List.mem_map.mpr ⟨f r, ht, rfl⟩
      simp only [List.foldl_cons, if_pos hk, if_pos ht]
      exact ih hsub' accT hacc
    · have hk : groupKey r ∉ accT.map key := by
        intro hmem
        obtain ⟨t, htmem, hteq⟩ := List.mem_map.mp hmem
        obtain ⟨s, hs, hts⟩ := hacc t htmem
        have hgs : groupKey s = groupKey r := by
          rw [hcomm s, hts, hteq]
        have htr : f s = f r := hinj s hs r hr hgs
        rw [← hts, htr] at htmem
        exact ht htmem
      simp only [List.foldl_cons, if_neg hk, if_neg ht]
      have hmap : accT.map key ++ [groupKey r] = (accT ++ [f r]).map key := by
        rw [List.map_append, hcomm r]
        rfl
      rw [hmap]
      refine ih hsub' (accT ++ [f r]) ?_
      intro t htm
      rcases List.mem_append.mp htm with h | h
      · exact hacc t h
      · exact ⟨r, hr, (List.mem_singleton.mp h).symm⟩

/-- Helper: when distinct triples yield distinct keys, the distinct keys
are exactly the images of the distinct triples, in the same order. -/
theorem firstKeys_eq_map_firstTriples (records : List OvhRecord)
    (hinj : ∀ r ∈ records, ∀ s ∈ records, groupKey r = groupKey s → tripleOf r = tripleOf s) :
    firstKeys records = (firstTriples records).map keyOfTriple := by
  have h := firstOccur_fold_map tripleOf keyOfTriple records (fun r => rfl) hinj
    records (fun r hr => hr) [] (by simp)
  simpa [firstKeys, firstOccur, firstTriples] using h.1

/-- Helper: the targets of a built group endpoint are its members'
targets. -/
theorem mkGroupEndpoint_targets (rs : List OvhRecord) :
    (mkGroupEndpoint rs).targets = rs.map OvhRecord.target := by
  cases rs with
  | nil => rfl
  | cons r0 rest => rfl

/-- C8: corrected form of the grouping claim.  Provided distinct
(zone, subdomain, type) triples yield distinct `//`-joined group keys (the
code concatenates the three names with `//`, so e.g. zone `a//b` with
subdomain `c` collides with zone `a` and subdomain `b//c`), grouping yields
exactly one Endpoint per distinct triple — the endpoint count equals the
number of distinct triples, which are duplicate-free — and the Endpoint of
each triple carries exactly the targets of the records with that triple (in
record order, hence equal as a set to their union). -/
theorem C8_grouping (records : List OvhRecord)
    (hinj : ∀ r ∈ records, ∀ s ∈ records, groupKey r = groupKey s → tripleOf r = tripleOf s) :
    (ovhGroupByNameAndType records).length = (firstTriples records).length ∧
    (firstTriples records).Nodup ∧
    ∀ t ∈ firstTriples records, ∃ e ∈ ovhGroupByNameAndType records,
      e.targets = (records.filter (fun r => tripleOf r == t)).map OvhRecord.target := by
  obtain ⟨hkeys, hvals⟩ := groupsOf_inv records
  refine ⟨?_, firstOccur_nodup tripleOf records, ?_⟩
  · calc (ovhGroupByNameAndType records).length
        = (groupsOf records).length := by
          rw [ovhGroupByNameAndType, List.length_map]
      _ = ((groupsOf records).map Prod.fst).length := by rw [List.length_map]
      _ = (firstKeys records).length := by rw [hkeys]
      _ = ((firstTriples records).map keyOfTriple).length := by
          rw [firstKeys_eq_map_firstTriples records hinj]
      _ = (firstTriples records).length := by rw [List.length_map]
  · intro t htmem
    have hkmem : keyOfTriple t ∈ (groupsOf records).map Prod.fst := by
      rw [hkeys, firstKeys_eq_map_firstTriples records hinj]
      exact List.mem_map.mpr ⟨t, htmem, rfl⟩
    obtain ⟨p, hp, hpk⟩ := List.mem_map.mp hkmem
    refine ⟨mkGroupEndpoint p.2, List.mem_map.mpr ⟨p, hp, rfl⟩, ?_⟩
    rw [mkGroupEndpoint_targets, hvals p hp, hpk]
    congr 1
    apply List.filter_congr
    intro x hx
    obtain ⟨s, hs, hts⟩ := (firstOccur_mem tripleOf records t).mp htmem
    by_cases hxt : tripleOf x = t
    · have h1 : (groupKey x == keyOfTriple t) = true := by
        rw [beq_iff_eq, ← hxt]
        rfl
      have h2 : (tripleOf x == t) = true := beq_iff_eq.mpr hxt
      rw [h1, h2]
    · have h2 : (tripleOf x == t) = false := beq_eq_false_iff_ne.mpr hxt
      have h1 : (groupKey x == keyOfTriple t) = false := by
        rw [beq_eq_false_iff_ne]
        intro hh
        have hgs : groupKey x = groupKey s := by
          rw [hh, ← hts]
          rfl
        have := hinj x hx s hs hgs
        exact hxt (by rw [this, hts])
      rw [h1, h2]

/-- C8 counterexample: on two records whose distinct (zone, subdomain, type)
triples collide through the `//`-joined key — zone `a//b` subdomain `c`
versus zone `a` subdomain `b//c` — the code yields a single Endpoint, not
one per distinct group as the claim states for every record set. -/
theorem C8_key_collision_counterexample :
    (ovhGroupByNameAndType
      [⟨"c", 0, "1.1.1.1", "A", 1, "a//b"⟩, ⟨"b//c", 0, "2.2.2.2", "A", 2, "a"⟩]).length = 1 ∧
    ¬tripleOf ⟨"c", 0, "1.1.1.1", "A", 1, "a//b"⟩ =
      tripleOf ⟨"b//c", 0, "2.2.2.2", "A", 2, "a"⟩ := by
  decide

/-- Witness for C8 on a two-record, one-group record set with collision-free
names. -/
theorem C8_grouping_witness :
    (ovhGroupByNameAndType
      [⟨"www", 0, "1.1.1.1", "A", 10, "example.com"⟩,
       ⟨"www", 0, "2.2.2.2", "A", 11, "example.com"⟩]).length =
      (firstTriples
        [⟨"www", 0, "1.1.1.1", "A", 10, "example.com"⟩,
         ⟨"www", 0, "2.2.2.2", "A", 11, "example.com"⟩]).length ∧
    (firstTriples
      [⟨"www", 0, "1.1.1.1", "A", 10, "example.com"⟩,
       ⟨"www", 0, "2.2.2.2", "A", 11, "example.com"⟩]).Nodup :=
  have h := C8_grouping
    [⟨"www", 0, "1.1.1.1", "A", 10, "example.com"⟩,
     ⟨"www", 0, "2.2.2.2", "A", 11, "example.com"⟩] (by decide)
  ⟨h.1, h.2.1⟩

end OvhSpec

